import Mathlib

/-!
# linear_algebra: Vector3, determinants and Cramer solvers

A shallow embedding of `linear_algebra.inl.hpp`.  The scalar type `T` of the
C++ template is a Lean type with the arithmetic the code uses; `==` on scalars
is decidable equality.  The `<cmath>` functions (`sqrt`, `sin`, `cos`, `acos`)
are passed as explicit function arguments to the methods that call them, so
every definition is computable and theorems over the reals instantiate them
with `Real.sqrt`, `Real.sin`, `Real.cos`, `Real.arccos`.

Reference parameters `T& x, T& y` of the solvers are modelled by state
passing: the solver takes the values held by the outputs before the call and
returns the boolean result together with the values they hold afterwards.
The output references are assumed not to alias the input vectors.
-/

namespace linear_algebra

/-- The struct `Vector3<T>`: three scalar components. -/
structure Vector3 (T : Type) where
  x : T
  y : T
  z : T
deriving DecidableEq

namespace Vector3

section Arithmetic

variable {T : Type}

/-- The default constructor `Vector3()`: all components default to `0`. -/
def zero [Zero T] : Vector3 T := ⟨0, 0, 0⟩

/-- The method `operator+`. -/
def add [Add T] (self other : Vector3 T) : Vector3 T :=
  ⟨self.x + other.x, self.y + other.y, self.z + other.z⟩

/-- The binary method `operator-`. -/
def sub [Sub T] (self other : Vector3 T) : Vector3 T :=
  ⟨self.x - other.x, self.y - other.y, self.z - other.z⟩

/-- The unary method `operator-`. -/
def neg [Neg T] (self : Vector3 T) : Vector3 T :=
  ⟨-self.x, -self.y, -self.z⟩

/-- The method `operator*(T scalar)`. -/
def mul [Mul T] (self : Vector3 T) (scalar : T) : Vector3 T :=
  ⟨self.x * scalar, self.y * scalar, self.z * scalar⟩

/-- The method `operator/(T scalar)`. -/
def div [Div T] (self : Vector3 T) (scalar : T) : Vector3 T :=
  ⟨self.x / scalar, self.y / scalar, self.z / scalar⟩

instance [Add T] : Add (Vector3 T) := ⟨add⟩
instance [Sub T] : Sub (Vector3 T) := ⟨sub⟩
instance [Neg T] : Neg (Vector3 T) := ⟨neg⟩
instance [Mul T] : HMul (Vector3 T) T (Vector3 T) := ⟨mul⟩
instance [Div T] : HDiv (Vector3 T) T (Vector3 T) := ⟨div⟩

/-- The method `operator+=`: the receiver after the update. -/
def addAssign [Add T] (self other : Vector3 T) : Vector3 T :=
  ⟨self.x + other.x, self.y + other.y, self.z + other.z⟩

/-- The method `operator-=`: the receiver after the update. -/
def subAssign [Sub T] (self other : Vector3 T) : Vector3 T :=
  ⟨self.x - other.x, self.y - other.y, self.z - other.z⟩

/-- The method `operator*=`: the receiver after the update. -/
def mulAssign [Mul T] (self : Vector3 T) (scalar : T) : Vector3 T :=
  ⟨self.x * scalar, self.y * scalar, self.z * scalar⟩

/-- The method `operator/=`: the receiver after the update. -/
def divAssign [Div T] (self : Vector3 T) (scalar : T) : Vector3 T :=
  ⟨self.x / scalar, self.y / scalar, self.z / scalar⟩

/-- The method `operator==`: exact component-wise comparison. -/
def eq [DecidableEq T] (self other : Vector3 T) : Bool :=
  decide (self.x = other.x) && decide (self.y = other.y) && decide (self.z = other.z)

/-- The method `operator!=`. -/
def ne [DecidableEq T] (self other : Vector3 T) : Bool :=
  decide (self.x ≠ other.x) || decide (self.y ≠ other.y) || decide (self.z ≠ other.z)

end Arithmetic

section Methods

variable {T : Type}

/-- The method `length`, with `sqrt` the square root of `<cmath>`. -/
def length [Add T] [Mul T] (sqrt : T → T) (self : Vector3 T) : T :=
  sqrt (self.x * self.x + self.y * self.y + self.z * self.z)

/-- The method `versor`: the receiver itself when its length is exactly `0`,
otherwise the receiver divided by its length. -/
def versor [Add T] [Mul T] [Div T] [Zero T] [DecidableEq T]
    (sqrt : T → T) (self : Vector3 T) : Vector3 T :=
  let len := length sqrt self
  if len = 0 then self else self.div len

/-- The method `dot`. -/
def dot [Add T] [Mul T] (self other : Vector3 T) : T :=
  self.x * other.x + self.y * other.y + self.z * other.z

/-- The method `cross`, with the third component exactly as in the source. -/
def cross [Sub T] [Mul T] (self v : Vector3 T) : Vector3 T :=
  ⟨self.y * v.z - self.z * v.y, self.z * v.x - self.x * v.z, self.x * v.x - self.y * v.x⟩

/-- The method `angle`, with `sqrt` and `acos` those of `<cmath>`. -/
def angle [Add T] [Mul T] [Div T] [Zero T] [DecidableEq T]
    (sqrt acos : T → T) (self other : Vector3 T) : T :=
  let len := length sqrt self * length sqrt other
  if len = 0 then 0 else acos (dot self other / len)

/-- The method `proj`: `other` on the receiver. -/
def proj [Add T] [Mul T] [Div T] [Zero T] [DecidableEq T]
    (sqrt : T → T) (self other : Vector3 T) : Vector3 T :=
  let v := versor sqrt self
  v.mul (v.dot other)

/-- The method `rej`: `other` from the receiver. -/
def rej [Add T] [Sub T] [Mul T] [Div T] [Zero T] [DecidableEq T]
    (sqrt : T → T) (self other : Vector3 T) : Vector3 T :=
  other.sub (proj sqrt self other)

/-- The method `scalarproj`: `other` on the receiver. -/
def scalarproj [Add T] [Mul T] [Div T] [Zero T] [DecidableEq T]
    (sqrt : T → T) (self other : Vector3 T) : T :=
  (versor sqrt self).dot other

/-- The method `rotate`: `other` around the receiver, with `sqrt`, `sin` and
`cos` those of `<cmath>`. -/
def rotate [Add T] [Sub T] [Mul T] [Div T] [Zero T] [One T] [DecidableEq T]
    (sqrt sin cos : T → T) (self other : Vector3 T) (angle : T) : Vector3 T :=
  let u := versor sqrt self
  let a2 := u.x * u.x
  let ab := u.x * u.y
  let ac := u.x * u.z
  let b2 := u.y * u.y
  let bc := u.y * u.z
  let c2 := u.z * u.z
  let sint := sin angle
  let cost := cos angle
  let _1mcost := 1 - cost
  let asint := u.x * sint
  let bsint := u.y * sint
  let csint := u.z * sint
  let x := other.x
  let y := other.y
  let z := other.z
  ⟨x * (a2 * _1mcost + cost) + y * (ab * _1mcost - csint) + z * (ac * _1mcost + bsint),
   x * (ab * _1mcost + csint) + y * (b2 * _1mcost + cost) + z * (bc * _1mcost - asint),
   x * (ac * _1mcost - bsint) + y * (bc * _1mcost + asint) + z * (c2 * _1mcost + cost)⟩

end Methods

end Vector3

section Free

variable {T : Type}

/-- The two-vector overload of `det`. -/
def det [Sub T] [Mul T] (a b : Vector3 T) : T :=
  a.x * b.y - a.y * b.x

/-- The three-vector overload of `det`. -/
def det3 [Add T] [Sub T] [Mul T] (a b c : Vector3 T) : T :=
  a.x * b.y * c.z + b.x * c.y * a.z + c.x * a.y * b.z
    - a.z * b.y * c.x - b.z * c.y * a.x - c.z * a.y * b.x

/-- The two-unknown overload of `solvesys`.  `x` and `y` are the values the
output references hold before the call; the result is the returned flag with
the values they hold after it. -/
def solvesys [Sub T] [Mul T] [Div T] [Zero T] [DecidableEq T]
    (a b c : Vector3 T) (x y : T) : Bool × T × T :=
  let D := det a b
  if D = 0 then (false, x, y)
  else (true, det c b / D, det a c / D)

/-- The three-unknown overload of `solvesys`, with the outputs passed as in
the two-unknown overload. -/
def solvesys3 [Add T] [Sub T] [Mul T] [Div T] [Zero T] [DecidableEq T]
    (a b c d : Vector3 T) (x y z : T) : Bool × T × T × T :=
  let D := det3 a b c
  if D = 0 then (false, x, y, z)
  else (true, det3 d b c / D, det3 a d c / D, det3 a b d / D)

/-- The matrix whose rows are `a`, `b`, `c`, as the spec describes the
argument of the reference determinant. -/
def rowsMatrix (a b c : Vector3 T) : Matrix (Fin 3) (Fin 3) T :=
  !![a.x, a.y, a.z; b.x, b.y, b.z; c.x, c.y, c.z]

/-- The matrix whose columns are `a`, `b`, `c`. -/
def colsMatrix (a b c : Vector3 T) : Matrix (Fin 3) (Fin 3) T :=
  !![a.x, b.x, c.x; a.y, b.y, c.y; a.z, b.z, c.z]

/-! ## Unfolding lemmas -/

theorem Vector3.add_def [Add T] (a b : Vector3 T) :
    a + b = ⟨a.x + b.x, a.y + b.y, a.z + b.z⟩ := rfl

theorem Vector3.sub_def [Sub T] (a b : Vector3 T) :
    a - b = ⟨a.x - b.x, a.y - b.y, a.z - b.z⟩ := rfl

theorem Vector3.neg_def [Neg T] (a : Vector3 T) : -a = ⟨-a.x, -a.y, -a.z⟩ := rfl

theorem Vector3.mul_def [Mul T] (a : Vector3 T) (s : T) :
    a * s = ⟨a.x * s, a.y * s, a.z * s⟩ := rfl

theorem Vector3.div_def [Div T] (a : Vector3 T) (s : T) :
    a / s = ⟨a.x / s, a.y / s, a.z / s⟩ := rfl

theorem Vector3.eq_iff [DecidableEq T] (a b : Vector3 T) : a.eq b = true ↔ a = b := by
  cases a; cases b
  simp [Vector3.eq, and_assoc]

theorem solvesys_singular [Sub T] [Mul T] [Div T] [Zero T] [DecidableEq T]
    (a b c : Vector3 T) (x y : T) (h : det a b = 0) :
    solvesys a b c x y = (false, x, y) := by
  simp [solvesys, h]

theorem solvesys_regular [Sub T] [Mul T] [Div T] [Zero T] [DecidableEq T]
    (a b c : Vector3 T) (x y : T) (h : det a b ≠ 0) :
    solvesys a b c x y = (true, det c b / det a b, det a c / det a b) := by
  simp [solvesys, h]

theorem solvesys3_singular [Add T] [Sub T] [Mul T] [Div T] [Zero T] [DecidableEq T]
    (a b c d : Vector3 T) (x y z : T) (h : det3 a b c = 0) :
    solvesys3 a b c d x y z = (false, x, y, z) := by
  simp [solvesys3, h]

theorem solvesys3_regular [Add T] [Sub T] [Mul T] [Div T] [Zero T] [DecidableEq T]
    (a b c d : Vector3 T) (x y z : T) (h : det3 a b c ≠ 0) :
    solvesys3 a b c d x y z =
      (true, det3 d b c / det3 a b c, det3 a d c / det3 a b c, det3 a b d / det3 a b c) := by
  simp [solvesys3, h]

end Free

/-! ## The two-unknown solver -/

section Solve2

variable {T : Type} [Field T] [DecidableEq T]

/-- C1: whenever the two-unknown `solvesys` returns true, the outputs it
writes satisfy `a*x + b*y = c` in the x and y components. -/
theorem solvesys_sound (a b c : Vector3 T) (x0 y0 : T)
    (h : (solvesys a b c x0 y0).1 = true) :
    a.x * (solvesys a b c x0 y0).2.1 + b.x * (solvesys a b c x0 y0).2.2 = c.x ∧
    a.y * (solvesys a b c x0 y0).2.1 + b.y * (solvesys a b c x0 y0).2.2 = c.y := by
  by_cases hD : det a b = 0
  · rw [solvesys_singular a b c x0 y0 hD] at h
    simp at h
  · rw [solvesys_regular a b c x0 y0 hD]
    simp only [det] at hD ⊢
    constructor
    · field_simp
      ring
    · field_simp
      ring

/-- Witness for C1: the scenario `a = (1,0,_)`, `b = (0,1,_)`, `c = (5,7,_)`
succeeds with `x = 5`, `y = 7`, and the outputs solve both equations. -/
theorem solvesys_sound_witness :
    solvesys (⟨1, 0, 0⟩ : Vector3 ℚ) ⟨0, 1, 0⟩ ⟨5, 7, 0⟩ 0 0 = (true, 5, 7) ∧
    ((⟨1, 0, 0⟩ : Vector3 ℚ).x * (solvesys (⟨1, 0, 0⟩ : Vector3 ℚ) ⟨0, 1, 0⟩ ⟨5, 7, 0⟩ 0 0).2.1
      + (⟨0, 1, 0⟩ : Vector3 ℚ).x * (solvesys (⟨1, 0, 0⟩ : Vector3 ℚ) ⟨0, 1, 0⟩ ⟨5, 7, 0⟩ 0 0).2.2
      = (⟨5, 7, 0⟩ : Vector3 ℚ).x ∧
    (⟨1, 0, 0⟩ : Vector3 ℚ).y * (solvesys (⟨1, 0, 0⟩ : Vector3 ℚ) ⟨0, 1, 0⟩ ⟨5, 7, 0⟩ 0 0).2.1
      + (⟨0, 1, 0⟩ : Vector3 ℚ).y * (solvesys (⟨1, 0, 0⟩ : Vector3 ℚ) ⟨0, 1, 0⟩ ⟨5, 7, 0⟩ 0 0).2.2
      = (⟨5, 7, 0⟩ : Vector3 ℚ).y) :=
  ⟨by norm_num [solvesys, det],
   solvesys_sound ⟨1, 0, 0⟩ ⟨0, 1, 0⟩ ⟨5, 7, 0⟩ 0 0 (by norm_num [solvesys, det])⟩

/-- C5: the solution reported by the two-unknown `solvesys` is the only one:
any pair solving both equations equals the outputs. -/
theorem solvesys_unique (a b c : Vector3 T) (x0 y0 x' y' : T)
    (h : (solvesys a b c x0 y0).1 = true)
    (hx : a.x * x' + b.x * y' = c.x) (hy : a.y * x' + b.y * y' = c.y) :
    x' = (solvesys a b c x0 y0).2.1 ∧ y' = (solvesys a b c x0 y0).2.2 := by
  by_cases hD : det a b = 0
  · rw [solvesys_singular a b c x0 y0 hD] at h
    simp at h
  · rw [solvesys_regular a b c x0 y0 hD]
    simp only [det] at hD ⊢
    constructor
    · rw [eq_div_iff hD]
      linear_combination b.y * hx - b.x * hy
    · rw [eq_div_iff hD]
      linear_combination a.x * hy - a.y * hx

/-- Witness for C5: in the system `a = (1,0,_)`, `b = (0,1,_)`, `c = (5,7,_)`
the pair `(5, 7)` solves both equations and equals the reported outputs. -/
theorem solvesys_unique_witness :
    (solvesys (⟨1, 0, 0⟩ : Vector3 ℚ) ⟨0, 1, 0⟩ ⟨5, 7, 0⟩ 0 0).1 = true ∧
    ((5 : ℚ) = (solvesys (⟨1, 0, 0⟩ : Vector3 ℚ) ⟨0, 1, 0⟩ ⟨5, 7, 0⟩ 0 0).2.1 ∧
     (7 : ℚ) = (solvesys (⟨1, 0, 0⟩ : Vector3 ℚ) ⟨0, 1, 0⟩ ⟨5, 7, 0⟩ 0 0).2.2) :=
  ⟨by norm_num [solvesys, det],
   solvesys_unique ⟨1, 0, 0⟩ ⟨0, 1, 0⟩ ⟨5, 7, 0⟩ 0 0 5 7 (by norm_num [solvesys, det])
     (by norm_num) (by norm_num)⟩

end Solve2

section Solve2Flag

variable {T : Type} [Sub T] [Mul T] [Div T] [Zero T] [DecidableEq T]

/-- C2: the two-unknown `solvesys` returns false exactly when `det(a, b)` is
zero, and when it returns false both outputs keep their values from before
the call. -/
theorem solvesys_false_iff (a b c : Vector3 T) (x0 y0 : T) :
    ((solvesys a b c x0 y0).1 = false ↔ det a b = 0) ∧
    ((solvesys a b c x0 y0).1 = false →
      (solvesys a b c x0 y0).2.1 = x0 ∧ (solvesys a b c x0 y0).2.2 = y0) := by
  by_cases hD : det a b = 0
  · rw [solvesys_singular a b c x0 y0 hD]
    simp [hD]
  · rw [solvesys_regular a b c x0 y0 hD]
    simp [hD]

/-- Witness for C2: the parallel pair `a = (1,2,_)`, `b = (2,4,_)` makes the
solver fail and leaves the outputs `11`, `13` as they were. -/
theorem solvesys_false_iff_witness :
    solvesys (⟨1, 2, 0⟩ : Vector3 ℚ) ⟨2, 4, 0⟩ ⟨5, 7, 0⟩ 11 13 = (false, 11, 13) ∧
    (solvesys (⟨1, 2, 0⟩ : Vector3 ℚ) ⟨2, 4, 0⟩ ⟨5, 7, 0⟩ 11 13).2.1 = 11 ∧
    (solvesys (⟨1, 2, 0⟩ : Vector3 ℚ) ⟨2, 4, 0⟩ ⟨5, 7, 0⟩ 11 13).2.2 = 13 :=
  ⟨by norm_num [solvesys, det],
   (solvesys_false_iff (⟨1, 2, 0⟩ : Vector3 ℚ) ⟨2, 4, 0⟩ ⟨5, 7, 0⟩ 11 13).2
     (by norm_num [solvesys, det])⟩

end Solve2Flag

/-! ## The three-unknown solver -/

section Solve3

variable {T : Type} [Field T] [DecidableEq T]

/-- C3: whenever the three-unknown `solvesys` returns true, the outputs
satisfy `a*x + b*y + c*z = d` in all three components. -/
theorem solvesys3_sound (a b c d : Vector3 T) (x0 y0 z0 : T)
    (h : (solvesys3 a b c d x0 y0 z0).1 = true) :
    a.x * (solvesys3 a b c d x0 y0 z0).2.1 + b.x * (solvesys3 a b c d x0 y0 z0).2.2.1
      + c.x * (solvesys3 a b c d x0 y0 z0).2.2.2 = d.x ∧
    a.y * (solvesys3 a b c d x0 y0 z0).2.1 + b.y * (solvesys3 a b c d x0 y0 z0).2.2.1
      + c.y * (solvesys3 a b c d x0 y0 z0).2.2.2 = d.y ∧
    a.z * (solvesys3 a b c d x0 y0 z0).2.1 + b.z * (solvesys3 a b c d x0 y0 z0).2.2.1
      + c.z * (solvesys3 a b c d x0 y0 z0).2.2.2 = d.z := by
  by_cases hD : det3 a b c = 0
  · rw [solvesys3_singular a b c d x0 y0 z0 hD] at h
    simp at h
  · rw [solvesys3_regular a b c d x0 y0 z0 hD]
    simp only [det3] at hD ⊢
    refine ⟨?_, ?_, ?_⟩
    · field_simp
      ring
    · field_simp
      ring
    · field_simp
      ring

/-- Witness for C3: the scenario `a = (1,0,0)`, `b = (0,1,0)`, `c = (0,0,1)`,
`d = (3,4,5)` succeeds with `x = 3`, `y = 4`, `z = 5`, and the outputs solve
the x-component equation (with the other two). -/
theorem solvesys3_sound_witness :
    solvesys3 (⟨1, 0, 0⟩ : Vector3 ℚ) ⟨0, 1, 0⟩ ⟨0, 0, 1⟩ ⟨3, 4, 5⟩ 0 0 0 = (true, 3, 4, 5) ∧
    (⟨1, 0, 0⟩ : Vector3 ℚ).x
        * (solvesys3 (⟨1, 0, 0⟩ : Vector3 ℚ) ⟨0, 1, 0⟩ ⟨0, 0, 1⟩ ⟨3, 4, 5⟩ 0 0 0).2.1
      + (⟨0, 1, 0⟩ : Vector3 ℚ).x
        * (solvesys3 (⟨1, 0, 0⟩ : Vector3 ℚ) ⟨0, 1, 0⟩ ⟨0, 0, 1⟩ ⟨3, 4, 5⟩ 0 0 0).2.2.1
      + (⟨0, 0, 1⟩ : Vector3 ℚ).x
        * (solvesys3 (⟨1, 0, 0⟩ : Vector3 ℚ) ⟨0, 1, 0⟩ ⟨0, 0, 1⟩ ⟨3, 4, 5⟩ 0 0 0).2.2.2
      = (⟨3, 4, 5⟩ : Vector3 ℚ).x :=
  ⟨by norm_num [solvesys3, det3],
   (solvesys3_sound ⟨1, 0, 0⟩ ⟨0, 1, 0⟩ ⟨0, 0, 1⟩ ⟨3, 4, 5⟩ 0 0 0
     (by norm_num [solvesys3, det3])).1⟩

end Solve3

section Solve3Flag

variable {T : Type} [Add T] [Sub T] [Mul T] [Div T] [Zero T] [DecidableEq T]

/-- C4: the three-unknown `solvesys` returns false exactly when
`det(a, b, c)` is zero, and when it returns false none of the three outputs
is modified. -/
theorem solvesys3_false_iff (a b c d : Vector3 T) (x0 y0 z0 : T) :
    ((solvesys3 a b c d x0 y0 z0).1 = false ↔ det3 a b c = 0) ∧
    ((solvesys3 a b c d x0 y0 z0).1 = false →
      (solvesys3 a b c d x0 y0 z0).2.1 = x0 ∧ (solvesys3 a b c d x0 y0 z0).2.2.1 = y0 ∧
      (solvesys3 a b c d x0 y0 z0).2.2.2 = z0) := by
  by_cases hD : det3 a b c = 0
  · rw [solvesys3_singular a b c d x0 y0 z0 hD]
    simp [hD]
  · rw [solvesys3_regular a b c d x0 y0 z0 hD]
    simp [hD]

/-- Witness for C4: the coplanar triple `a = (1,2,3)`, `b = (4,5,6)`,
`c = (5,7,9)` makes the solver fail and leaves the outputs `11`, `13`, `17`
as they were. -/
theorem solvesys3_false_iff_witness :
    solvesys3 (⟨1, 2, 3⟩ : Vector3 ℚ) ⟨4, 5, 6⟩ ⟨5, 7, 9⟩ ⟨1, 1, 1⟩ 11 13 17
      = (false, 11, 13, 17) ∧
    (solvesys3 (⟨1, 2, 3⟩ : Vector3 ℚ) ⟨4, 5, 6⟩ ⟨5, 7, 9⟩ ⟨1, 1, 1⟩ 11 13 17).2.1 = 11 ∧
    (solvesys3 (⟨1, 2, 3⟩ : Vector3 ℚ) ⟨4, 5, 6⟩ ⟨5, 7, 9⟩ ⟨1, 1, 1⟩ 11 13 17).2.2.1 = 13 ∧
    (solvesys3 (⟨1, 2, 3⟩ : Vector3 ℚ) ⟨4, 5, 6⟩ ⟨5, 7, 9⟩ ⟨1, 1, 1⟩ 11 13 17).2.2.2 = 17 :=
  ⟨by norm_num [solvesys3, det3],
   (solvesys3_false_iff (⟨1, 2, 3⟩ : Vector3 ℚ) ⟨4, 5, 6⟩ ⟨5, 7, 9⟩ ⟨1, 1, 1⟩ 11 13 17).2
     (by norm_num [solvesys3, det3])⟩

end Solve3Flag

/-! ## Determinants -/

section Det

variable {T : Type}

/-- C6: the three-vector `det` agrees with the reference determinant of the
3x3 matrix whose rows are `a`, `b`, `c`, and of the one whose columns are
`a`, `b`, `c`. -/
theorem det3_eq_matrix_det [CommRing T] (a b c : Vector3 T) :
    det3 a b c = Matrix.det (rowsMatrix a b c) ∧
    det3 a b c = Matrix.det (colsMatrix a b c) := by
  constructor
  · rw [rowsMatrix, Matrix.det_fin_three]
    simp [det3]
    ring
  · rw [colsMatrix, Matrix.det_fin_three]
    simp [det3]
    ring

/-- C7: the three-vector `det` is zero on linearly dependent vectors: if
scalars `p`, `q`, `r`, not all zero, give `a*p + b*q + c*r` equal to the zero
vector, then `det(a, b, c)` is zero; and `det(a, b, a + b)` is zero. -/
theorem det3_dependent [Field T] (a b c : Vector3 T) :
    (∀ p q r : T, ¬(p = 0 ∧ q = 0 ∧ r = 0) →
      a * p + b * q + c * r = Vector3.zero → det3 a b c = 0) ∧
    det3 a b (a + b) = 0 := by
  constructor
  · intro p q r hne hdep
    simp only [Vector3.mul_def, Vector3.add_def, Vector3.zero, Vector3.mk.injEq] at hdep
    obtain ⟨hx, hy, hz⟩ := hdep
    have hp : p * det3 a b c = 0 := by
      simp only [det3]
      linear_combination (b.y * c.z - b.z * c.y) * hx + (b.z * c.x - b.x * c.z) * hy
        + (b.x * c.y - b.y * c.x) * hz
    have hq : q * det3 a b c = 0 := by
      simp only [det3]
      linear_combination (a.z * c.y - a.y * c.z) * hx + (a.x * c.z - a.z * c.x) * hy
        + (a.y * c.x - a.x * c.y) * hz
    have hr : r * det3 a b c = 0 := by
      simp only [det3]
      linear_combination (a.y * b.z - a.z * b.y) * hx + (a.z * b.x - a.x * b.z) * hy
        + (a.x * b.y - a.y * b.x) * hz
    by_contra hdet
    exact hne ⟨(mul_eq_zero.1 hp).resolve_right hdet, (mul_eq_zero.1 hq).resolve_right hdet,
      (mul_eq_zero.1 hr).resolve_right hdet⟩
  · simp only [det3, Vector3.add_def]
    ring

/-- Witness for C7: `(1,2,3)*1 + (4,5,6)*1 + (5,7,9)*(-1)` is the zero vector
with coefficients not all zero, and the determinant of the three is zero. -/
theorem det3_dependent_witness :
    ¬((1 : ℚ) = 0 ∧ (1 : ℚ) = 0 ∧ (-1 : ℚ) = 0) ∧
    (⟨1, 2, 3⟩ : Vector3 ℚ) * (1 : ℚ) + (⟨4, 5, 6⟩ : Vector3 ℚ) * (1 : ℚ)
      + (⟨5, 7, 9⟩ : Vector3 ℚ) * (-1 : ℚ) = Vector3.zero ∧
    det3 (⟨1, 2, 3⟩ : Vector3 ℚ) ⟨4, 5, 6⟩ ⟨5, 7, 9⟩ = 0 :=
  ⟨by norm_num,
   by norm_num [Vector3.mul_def, Vector3.add_def, Vector3.zero],
   (det3_dependent (⟨1, 2, 3⟩ : Vector3 ℚ) ⟨4, 5, 6⟩ ⟨5, 7, 9⟩).1 1 1 (-1) (by norm_num)
     (by norm_num [Vector3.mul_def, Vector3.add_def, Vector3.zero])⟩

/-- C8: the two-vector `det` is antisymmetric, `det(a, b) = -det(b, a)`, and
`det(a, a)` is zero. -/
theorem det_antisymm [CommRing T] (a b : Vector3 T) :
    det a b = -det b a ∧ det a a = 0 := by
  constructor
  · simp only [det]
    ring
  · simp only [det]
    ring

end Det

/-! ## Projection and rejection over the reals -/

section ProjRej

open Vector3

/-- C9: over the reals, for a nonzero receiver, `proj(other) + rej(other)`
compares equal to `other` under the component-wise `operator==`. -/
theorem proj_add_rej (self other : Vector3 ℝ) (_h : self ≠ Vector3.zero) :
    (proj Real.sqrt self other + rej Real.sqrt self other).eq other = true := by
  rw [Vector3.eq_iff]
  simp [Vector3.add_def, rej, Vector3.sub]

/-- Witness for C9: the receiver `(3,4,0)` is nonzero and, with
`other = (1,2,3)`, projection plus rejection compares equal to `other`. -/
theorem proj_add_rej_witness :
    (⟨3, 4, 0⟩ : Vector3 ℝ) ≠ Vector3.zero ∧
    (proj Real.sqrt (⟨3, 4, 0⟩ : Vector3 ℝ) ⟨1, 2, 3⟩
      + rej Real.sqrt (⟨3, 4, 0⟩ : Vector3 ℝ) ⟨1, 2, 3⟩).eq ⟨1, 2, 3⟩ = true :=
  ⟨by simp [Vector3.zero],
   proj_add_rej ⟨3, 4, 0⟩ ⟨1, 2, 3⟩ (by simp [Vector3.zero])⟩

/-- C10: over the reals, the rejection is orthogonal to the receiver:
`this.dot(this.rej(other))` is zero for every receiver and every `other`. -/
theorem dot_rej (self other : Vector3 ℝ) :
    self.dot (rej Real.sqrt self other) = 0 := by
  obtain ⟨x, y, z⟩ := self
  obtain ⟨u, v, w⟩ := other
  have hs : 0 ≤ x * x + y * y + z * z := by
    nlinarith [mul_self_nonneg x, mul_self_nonneg y, mul_self_nonneg z]
  by_cases hl : Real.sqrt (x * x + y * y + z * z) = 0
  · have h0 : x * x + y * y + z * z = 0 := (Real.sqrt_eq_zero hs).1 hl
    have hx : x = 0 := by nlinarith [mul_self_nonneg x, mul_self_nonneg y, mul_self_nonneg z]
    have hy : y = 0 := by nlinarith [mul_self_nonneg x, mul_self_nonneg y, mul_self_nonneg z]
    have hz : z = 0 := by nlinarith [mul_self_nonneg x, mul_self_nonneg y, mul_self_nonneg z]
    subst hx hy hz
    simp [rej, proj, versor, length, dot, Vector3.sub, Vector3.mul]
  · have hsq : Real.sqrt (x * x + y * y + z * z) * Real.sqrt (x * x + y * y + z * z)
        = x * x + y * y + z * z := Real.mul_self_sqrt hs
    simp only [rej, proj, versor, length, dot, Vector3.sub, Vector3.mul, Vector3.div, hl,
      if_false]
    generalize Real.sqrt (x * x + y * y + z * z) = l at hl hsq
    field_simp
    rw [hsq]
    ring

end ProjRej

/-! ## Vector arithmetic and the cross product -/

section Algebra

variable {T : Type}

open Vector3

/-- C15: over a field, multiplying a vector by a nonzero scalar and dividing
by the same scalar gives a vector that compares equal to the original. -/
theorem mul_div_cancel_scalar [Field T] [DecidableEq T] (v : Vector3 T) (s : T)
    (hs : s ≠ 0) : ((v * s) / s).eq v = true := by
  rw [Vector3.eq_iff, Vector3.mul_def, Vector3.div_def]
  cases v
  simp [hs]

/-- Witness for C15: `((1,2,3) * 2) / 2` compares equal to `(1,2,3)`. -/
theorem mul_div_cancel_scalar_witness :
    (2 : ℚ) ≠ 0 ∧ (((⟨1, 2, 3⟩ : Vector3 ℚ) * (2 : ℚ)) / (2 : ℚ)).eq ⟨1, 2, 3⟩ = true :=
  ⟨by norm_num, mul_div_cancel_scalar ⟨1, 2, 3⟩ 2 (by norm_num)⟩

/-- C16: `v + (-v)` is the zero vector and `v - v` is the zero vector. -/
theorem add_neg_sub_self [AddGroup T] (v : Vector3 T) :
    v + (-v) = Vector3.zero ∧ v - v = Vector3.zero := by
  constructor
  · rw [Vector3.neg_def, Vector3.add_def]
    simp [Vector3.zero]
  · rw [Vector3.sub_def]
    simp [Vector3.zero]

/-- C17: `cross` returns exactly
`(a.y*v.z - a.z*v.y, a.z*v.x - a.x*v.z, a.x*v.x - a.y*v.x)`, and for some
`a`, `v` its third component differs from the conventional
`a.x*v.y - a.y*v.x`. -/
theorem cross_formula [Ring T] [Nontrivial T] :
    (∀ a v : Vector3 T, a.cross v =
      ⟨a.y * v.z - a.z * v.y, a.z * v.x - a.x * v.z, a.x * v.x - a.y * v.x⟩) ∧
    ∃ a v : Vector3 T, (a.cross v).z ≠ a.x * v.y - a.y * v.x := by
  refine ⟨fun a v => rfl, ⟨1, 0, 0⟩, ⟨0, 1, 0⟩, ?_⟩
  simp [cross]

/-- Witness for C17: over the rationals, `(1,2,3).cross((4,5,6))` is the
stated triple, and some pair has a third component off the conventional one. -/
theorem cross_formula_witness :
    (⟨1, 2, 3⟩ : Vector3 ℚ).cross ⟨4, 5, 6⟩ = ⟨2 * 6 - 3 * 5, 3 * 4 - 1 * 6, 1 * 4 - 2 * 4⟩ ∧
    ∃ a v : Vector3 ℚ, (a.cross v).z ≠ a.x * v.y - a.y * v.x :=
  ⟨(@cross_formula ℚ _ _).1 ⟨1, 2, 3⟩ ⟨4, 5, 6⟩, (@cross_formula ℚ _ _).2⟩

/-- C18, evaluated at `a = (1,0,0)`, `b = (0,1,0)`: both vectors lie in the
xy-plane, `det(a, b)` is `a.x*b.y - a.y*b.x = 1`, and the z component of
`a.cross(b)` is `0`. -/
theorem det_cross_z_at_unit_vectors :
    (⟨1, 0, 0⟩ : Vector3 ℚ).z = 0 ∧ (⟨0, 1, 0⟩ : Vector3 ℚ).z = 0 ∧
    det (⟨1, 0, 0⟩ : Vector3 ℚ) ⟨0, 1, 0⟩
      = (⟨1, 0, 0⟩ : Vector3 ℚ).x * (⟨0, 1, 0⟩ : Vector3 ℚ).y
        - (⟨1, 0, 0⟩ : Vector3 ℚ).y * (⟨0, 1, 0⟩ : Vector3 ℚ).x ∧
    det (⟨1, 0, 0⟩ : Vector3 ℚ) ⟨0, 1, 0⟩ = 1 ∧
    ((⟨1, 0, 0⟩ : Vector3 ℚ).cross ⟨0, 1, 0⟩).z = 0 := by
  refine ⟨rfl, rfl, rfl, ?_, ?_⟩
  · norm_num [det]
  · norm_num [cross]

end Algebra

/-! ## Length, versor and angle -/

section LengthLemmas

open Vector3

theorem Vector3.sumsq_nonneg (v : Vector3 ℝ) : 0 ≤ v.x * v.x + v.y * v.y + v.z * v.z := by
  nlinarith [mul_self_nonneg v.x, mul_self_nonneg v.y, mul_self_nonneg v.z]

theorem Vector3.length_mul_self (v : Vector3 ℝ) :
    length Real.sqrt v * length Real.sqrt v = v.x * v.x + v.y * v.y + v.z * v.z :=
  Real.mul_self_sqrt v.sumsq_nonneg

theorem Vector3.length_eq_zero_iff (v : Vector3 ℝ) :
    length Real.sqrt v = 0 ↔ v = Vector3.zero := by
  obtain ⟨x, y, z⟩ := v
  simp only [length, Vector3.zero, Vector3.mk.injEq]
  rw [Real.sqrt_eq_zero (Vector3.sumsq_nonneg ⟨x, y, z⟩)]
  constructor
  · intro h
    refine ⟨?_, ?_, ?_⟩ <;>
      nlinarith [mul_self_nonneg x, mul_self_nonneg y, mul_self_nonneg z]
  · rintro ⟨rfl, rfl, rfl⟩
    ring

theorem Vector3.versor_of_length_ne_zero (v : Vector3 ℝ) (h : length Real.sqrt v ≠ 0) :
    versor Real.sqrt v = ⟨v.x / length Real.sqrt v, v.y / length Real.sqrt v,
      v.z / length Real.sqrt v⟩ := by
  simp [versor, h, Vector3.div]

theorem Vector3.versor_sumsq (v : Vector3 ℝ) (h : length Real.sqrt v ≠ 0) :
    (versor Real.sqrt v).x * (versor Real.sqrt v).x
      + (versor Real.sqrt v).y * (versor Real.sqrt v).y
      + (versor Real.sqrt v).z * (versor Real.sqrt v).z = 1 := by
  rw [Vector3.versor_of_length_ne_zero v h]
  have hsq := Vector3.length_mul_self v
  generalize length Real.sqrt v = l at h hsq
  field_simp
  linarith

end LengthLemmas

section LengthVersorAngle

open Vector3

/-- C11: over the reals, a vector whose length is not zero has a versor of
length one, and the versor times the length compares equal to the vector. -/
theorem versor_unit (v : Vector3 ℝ) (h : length Real.sqrt v ≠ 0) :
    length Real.sqrt (versor Real.sqrt v) = 1 ∧
    (versor Real.sqrt v * length Real.sqrt v).eq v = true := by
  constructor
  · rw [length, Vector3.versor_sumsq v h, Real.sqrt_one]
  · rw [Vector3.eq_iff, Vector3.versor_of_length_ne_zero v h, Vector3.mul_def]
    cases v
    simp [h]

/-- Witness for C11: `(3,4,0)` has nonzero length, its versor has length one
and scales back to `(3,4,0)`. -/
theorem versor_unit_witness :
    length Real.sqrt (⟨3, 4, 0⟩ : Vector3 ℝ) ≠ 0 ∧
    (length Real.sqrt (versor Real.sqrt (⟨3, 4, 0⟩ : Vector3 ℝ)) = 1 ∧
     (versor Real.sqrt (⟨3, 4, 0⟩ : Vector3 ℝ)
        * length Real.sqrt (⟨3, 4, 0⟩ : Vector3 ℝ)).eq ⟨3, 4, 0⟩ = true) :=
  ⟨by simp [Vector3.length_eq_zero_iff, Vector3.zero],
   versor_unit ⟨3, 4, 0⟩ (by simp [Vector3.length_eq_zero_iff, Vector3.zero])⟩

/-- C12: the length of the zero vector is zero and the versor of the zero
vector is the zero vector, whatever the scalar division does: the branch that
divides is not taken.  The square root is any function with `sqrt 0 = 0`. -/
theorem length_versor_zero {T : Type} [Semiring T] [Div T] [DecidableEq T]
    (sqrt : T → T) (h0 : sqrt 0 = 0) :
    length sqrt (Vector3.zero : Vector3 T) = 0 ∧
    versor sqrt (Vector3.zero : Vector3 T) = Vector3.zero := by
  have hl : length sqrt (Vector3.zero : Vector3 T) = 0 := by
    simp [length, Vector3.zero, h0]
  exact ⟨hl, by simp [versor, hl]⟩

/-- Witness for C12: over the reals with the real square root. -/
theorem length_versor_zero_witness :
    Real.sqrt 0 = 0 ∧
    (length Real.sqrt (Vector3.zero : Vector3 ℝ) = 0 ∧
     versor Real.sqrt (Vector3.zero : Vector3 ℝ) = Vector3.zero) :=
  ⟨Real.sqrt_zero, length_versor_zero Real.sqrt Real.sqrt_zero⟩

/-- C13: over the reals, the angle of a nonzero vector with itself is zero;
and when either operand is the zero vector `angle` returns zero whatever
`acos` is, that is without evaluating it. -/
theorem angle_self_and_zero :
    (∀ v : Vector3 ℝ, v ≠ Vector3.zero → angle Real.sqrt Real.arccos v v = 0) ∧
    (∀ (acos : ℝ → ℝ) (w : Vector3 ℝ),
      angle Real.sqrt acos Vector3.zero w = 0 ∧ angle Real.sqrt acos w Vector3.zero = 0) := by
  constructor
  · intro v hv
    have hl : length Real.sqrt v ≠ 0 := fun h => hv ((Vector3.length_eq_zero_iff v).1 h)
    have hll : length Real.sqrt v * length Real.sqrt v ≠ 0 := mul_ne_zero hl hl
    have hd : dot v v / (length Real.sqrt v * length Real.sqrt v) = 1 := by
      rw [Vector3.length_mul_self]
      rw [Vector3.length_mul_self] at hll
      exact div_self hll
    simp only [angle, hll, if_false, hd, Real.arccos_one]
  · intro acos w
    have hz : length Real.sqrt (Vector3.zero : Vector3 ℝ) = 0 :=
      (Vector3.length_eq_zero_iff _).2 rfl
    simp [angle, hz]

/-- Witness for C13: `(3,4,0)` is nonzero and its angle with itself is zero. -/
theorem angle_self_and_zero_witness :
    (⟨3, 4, 0⟩ : Vector3 ℝ) ≠ Vector3.zero ∧
    angle Real.sqrt Real.arccos (⟨3, 4, 0⟩ : Vector3 ℝ) ⟨3, 4, 0⟩ = 0 :=
  ⟨by simp [Vector3.zero], angle_self_and_zero.1 ⟨3, 4, 0⟩ (by simp [Vector3.zero])⟩

end LengthVersorAngle

/-! ## Rotation -/

section Rotate

open Vector3

/-- C14: over the reals, rotating `other` by angle zero about a nonzero axis
gives a vector that compares equal to `other`. -/
theorem rotate_angle_zero (self other : Vector3 ℝ) (_h : self ≠ Vector3.zero) :
    (rotate Real.sqrt Real.sin Real.cos self other 0).eq other = true := by
  rw [Vector3.eq_iff]
  cases other
  simp [rotate]

/-- Witness for C14: rotating `(1,2,3)` by angle zero about `(3,4,0)`. -/
theorem rotate_angle_zero_witness :
    (⟨3, 4, 0⟩ : Vector3 ℝ) ≠ Vector3.zero ∧
    (rotate Real.sqrt Real.sin Real.cos (⟨3, 4, 0⟩ : Vector3 ℝ) ⟨1, 2, 3⟩ 0).eq ⟨1, 2, 3⟩
      = true :=
  ⟨by simp [Vector3.zero], rotate_angle_zero ⟨3, 4, 0⟩ ⟨1, 2, 3⟩ (by simp [Vector3.zero])⟩

/-- C19: over the reals, rotation about an axis of nonzero length preserves
the squared length `r.dot(r)` of the rotated vector, hence its length. -/
theorem rotate_preserves_length (self other : Vector3 ℝ) (t : ℝ)
    (h : length Real.sqrt self ≠ 0) :
    (rotate Real.sqrt Real.sin Real.cos self other t).dot
        (rotate Real.sqrt Real.sin Real.cos self other t) = other.dot other ∧
    length Real.sqrt (rotate Real.sqrt Real.sin Real.cos self other t)
      = length Real.sqrt other := by
  have hu := Vector3.versor_sumsq self h
  have hsc := Real.sin_sq_add_cos_sq t
  have key : (rotate Real.sqrt Real.sin Real.cos self other t).dot
      (rotate Real.sqrt Real.sin Real.cos self other t) = other.dot other := by
    simp only [rotate, dot]
    generalize versor Real.sqrt self = u at hu
    obtain ⟨a, b, c⟩ := u
    obtain ⟨x, y, z⟩ := other
    simp only at hu ⊢
    generalize Real.sin t = s at hsc
    generalize Real.cos t = k at hsc
    linear_combination
      ((1 - k) ^ 2 * (a * x + b * y + c * z) ^ 2 + s ^ 2 * (x * x + y * y + z * z)) * hu
      + ((x * x + y * y + z * z) - (a * x + b * y + c * z) ^ 2) * hsc
  refine ⟨key, ?_⟩
  simp only [dot] at key
  simp only [length]
  rw [key]

/-- Witness for C19: rotating `(1,2,3)` by angle `1` about `(3,4,0)`. -/
theorem rotate_preserves_length_witness :
    length Real.sqrt (⟨3, 4, 0⟩ : Vector3 ℝ) ≠ 0 ∧
    ((rotate Real.sqrt Real.sin Real.cos (⟨3, 4, 0⟩ : Vector3 ℝ) ⟨1, 2, 3⟩ 1).dot
        (rotate Real.sqrt Real.sin Real.cos (⟨3, 4, 0⟩ : Vector3 ℝ) ⟨1, 2, 3⟩ 1)
      = (⟨1, 2, 3⟩ : Vector3 ℝ).dot ⟨1, 2, 3⟩ ∧
     length Real.sqrt (rotate Real.sqrt Real.sin Real.cos (⟨3, 4, 0⟩ : Vector3 ℝ) ⟨1, 2, 3⟩ 1)
      = length Real.sqrt (⟨1, 2, 3⟩ : Vector3 ℝ)) :=
  ⟨by simp [Vector3.length_eq_zero_iff, Vector3.zero],
   rotate_preserves_length ⟨3, 4, 0⟩ ⟨1, 2, 3⟩ 1
     (by simp [Vector3.length_eq_zero_iff, Vector3.zero])⟩

/-- C20: over the reals, rotating about the zero vector scales `other` by
`cos(t)`; so when `cos(t)` is not one and `other` is not the zero vector the
result differs from `other`. -/
theorem rotate_zero_axis (other : Vector3 ℝ) (t : ℝ) :
    (rotate Real.sqrt Real.sin Real.cos Vector3.zero other t).eq (other * Real.cos t) = true ∧
    (Real.cos t ≠ 1 → other ≠ Vector3.zero →
      rotate Real.sqrt Real.sin Real.cos Vector3.zero other t ≠ other) := by
  have hz : length Real.sqrt (Vector3.zero : Vector3 ℝ) = 0 :=
    (Vector3.length_eq_zero_iff _).2 rfl
  have hv : versor Real.sqrt (Vector3.zero : Vector3 ℝ) = Vector3.zero := by
    simp [versor, hz]
  have hr : rotate Real.sqrt Real.sin Real.cos Vector3.zero other t = other * Real.cos t := by
    simp only [rotate, hv]
    simp [Vector3.zero, Vector3.mul_def]
  refine ⟨by rw [Vector3.eq_iff, hr], ?_⟩
  intro hc ho heq
  rw [hr, Vector3.mul_def] at heq
  apply ho
  obtain ⟨x, y, z⟩ := other
  simp only [Vector3.mk.injEq] at heq
  obtain ⟨hx, hy, hz'⟩ := heq
  have hne : Real.cos t - 1 ≠ 0 := sub_ne_zero.2 hc
  have e1 : x * (Real.cos t - 1) = 0 := by linarith
  have e2 : y * (Real.cos t - 1) = 0 := by linarith
  have e3 : z * (Real.cos t - 1) = 0 := by linarith
  simp only [Vector3.zero, Vector3.mk.injEq]
  exact ⟨(mul_eq_zero.1 e1).resolve_right hne, (mul_eq_zero.1 e2).resolve_right hne,
    (mul_eq_zero.1 e3).resolve_right hne⟩

/-- Witness for C20: rotating `(1,0,0)` by the angle `π` about the zero
vector gives a vector different from `(1,0,0)`. -/
theorem rotate_zero_axis_witness :
    Real.cos Real.pi ≠ 1 ∧ (⟨1, 0, 0⟩ : Vector3 ℝ) ≠ Vector3.zero ∧
    rotate Real.sqrt Real.sin Real.cos Vector3.zero (⟨1, 0, 0⟩ : Vector3 ℝ) Real.pi
      ≠ ⟨1, 0, 0⟩ :=
  ⟨by norm_num [Real.cos_pi], by simp [Vector3.zero],
   (rotate_zero_axis ⟨1, 0, 0⟩ Real.pi).2 (by norm_num [Real.cos_pi]) (by simp [Vector3.zero])⟩

end Rotate

end linear_algebra
